import Mathlib

/-!
Shallow embedding of the `ansort` natural-sorting library (Go) and proofs
about its specification claims.

Go strings are modelled as lists of Unicode codepoints (`List Char`).
Go compares strings byte-wise over their UTF-8 encoding; UTF-8 byte order
coincides with codepoint order, so codepoint-wise lexicographic comparison
is a faithful model of Go's `<` / `>` on (valid UTF-8) strings.  Go's
`len(s)` counts bytes; it is modelled by `goLen` below.
-/

namespace Ansort

/-- A Go string, as its list of runes (codepoints). -/
abbrev GoString := List Char

/-- Conversion from a Lean string literal to the model. -/
def goStr (s : String) : GoString := s.data

/-- UTF-8 encoded length in bytes of a single codepoint. -/
def utf8Len (c : Char) : Nat :=
  if c.toNat < 0x80 then 1
  else if c.toNat < 0x800 then 2
  else if c.toNat < 0x10000 then 3
  else 4

/-- Model of Go `len(s)`: the UTF-8 byte length of the string. -/
def goLen (s : GoString) : Nat := s.foldr (fun c n => utf8Len c + n) 0

/-- Model of Go's `<` on strings: strict byte-wise lexicographic order,
which on valid UTF-8 equals codepoint-wise lexicographic order. -/
def goStrLt : GoString → GoString → Bool
  | [], [] => false
  | [], _ :: _ => true
  | _ :: _, [] => false
  | a :: as, b :: bs =>
    if a < b then true
    else if b < a then false
    else goStrLt as bs

/-- True when the codepoint is an ASCII decimal digit `'0'..'9'`.  This is
the digit test written out in `parseStringASCII` and `parseStringUnicode`
(src/optimization.go): `c >= '0' && c <= '9'`. -/
def isAsciiDigit (c : Char) : Bool :=
  decide ('0' ≤ c) && decide (c ≤ '9')

/-- The Unicode `Nd` (decimal number) category, as codepoint ranges.
This is the table backing Go's `unicode.Digit` / `unicode.IsDigit`. -/
def ndRanges : List (Nat × Nat) :=
  [(0x30, 0x39), (0x660, 0x669), (0x6F0, 0x6F9), (0x7C0, 0x7C9),
   (0x966, 0x96F), (0x9E6, 0x9EF), (0xA66, 0xA6F), (0xAE6, 0xAEF),
   (0xB66, 0xB6F), (0xBE6, 0xBEF), (0xC66, 0xC6F), (0xCE6, 0xCEF),
   (0xD66, 0xD6F), (0xDE6, 0xDEF), (0xE50, 0xE59), (0xED0, 0xED9),
   (0xF20, 0xF29), (0x1040, 0x1049), (0x1090, 0x1099), (0x17E0, 0x17E9),
   (0x1810, 0x1819), (0x1946, 0x194F), (0x19D0, 0x19D9), (0x1A80, 0x1A89),
   (0x1A90, 0x1A99), (0x1B50, 0x1B59), (0x1BB0, 0x1BB9), (0x1C40, 0x1C49),
   (0x1C50, 0x1C59), (0xA620, 0xA629), (0xA8D0, 0xA8D9), (0xA900, 0xA909),
   (0xA9D0, 0xA9D9), (0xA9F0, 0xA9F9), (0xAA50, 0xAA59), (0xABF0, 0xABF9),
   (0xFF10, 0xFF19), (0x104A0, 0x104A9), (0x10D30, 0x10D39),
   (0x11066, 0x1106F), (0x110F0, 0x110F9), (0x11136, 0x1113F),
   (0x111D0, 0x111D9), (0x112F0, 0x112F9), (0x11450, 0x11459),
   (0x114D0, 0x114D9), (0x11650, 0x11659), (0x116C0, 0x116C9),
   (0x11730, 0x11739), (0x118E0, 0x118E9), (0x11950, 0x11959),
   (0x11C50, 0x11C59), (0x11D50, 0x11D59), (0x11DA0, 0x11DA9),
   (0x16A60, 0x16A69), (0x16AC0, 0x16AC9), (0x16B50, 0x16B59),
   (0x1D7CE, 0x1D7FF), (0x1E140, 0x1E149), (0x1E2F0, 0x1E2F9),
   (0x1E950, 0x1E959), (0x1FBF0, 0x1FBF9)]

/-- Model of Go `unicode.IsDigit` (src/ansort.go imports `unicode` and
`parseString` calls `unicode.IsDigit`): membership in the Unicode `Nd`
decimal-digit category. -/
def unicodeIsDigit (c : Char) : Bool :=
  ndRanges.any fun p => decide (p.1 ≤ c.toNat) && decide (c.toNat ≤ p.2)

/-- `TokenType` from src/ansort.go. -/
inductive TokenType where
  | AlphaToken : TokenType
  | NumericToken : TokenType
deriving DecidableEq, Repr

export TokenType (AlphaToken NumericToken)

/-- `Token` from src/ansort.go: `Type` and `Value` fields (the field
`Type` is renamed `tokenType` because `Type` is a Lean keyword). -/
structure Token where
  tokenType : TokenType
  value : GoString
deriving DecidableEq, Repr

/-- Concatenation of the token values, in order. -/
def joinTokens (ts : List Token) : GoString :=
  ts.foldr (fun t acc => t.value ++ acc) []

/-- The shared shape of the three tokenizer loops in src/ansort.go and
src/optimization.go: repeatedly take the maximal run of digits
(per the given digit test) or of non-digits from the front of the string.
Each loop iteration consumes at least one character, so the character
count of the input is enough fuel; the fuel argument only makes the
recursion structural. -/
def tokenizeFuel (isDig : Char → Bool) : Nat → GoString → List Token
  | _, [] => []
  | 0, _ :: _ => []
  | fuel + 1, c :: rest =>
    if isDig c then
      Token.mk NumericToken ((c :: rest).takeWhile isDig)
        :: tokenizeFuel isDig fuel ((c :: rest).dropWhile isDig)
    else
      Token.mk AlphaToken ((c :: rest).takeWhile (fun x => ! isDig x))
        :: tokenizeFuel isDig fuel ((c :: rest).dropWhile (fun x => ! isDig x))

/-- `parseString` from src/ansort.go: tokenizes a string into alternating
alphabetic and numeric segments, a codepoint being numeric when
`unicode.IsDigit` holds. -/
def parseString (s : GoString) : List Token :=
  tokenizeFuel unicodeIsDigit s.length s

/-- `isASCII` from src/optimization.go: every byte below 128. -/
def isASCII (s : GoString) : Bool :=
  s.all fun c => decide (c.toNat < 128)

/-- `parseStringASCII` from src/optimization.go.  The source loops over
raw bytes; it is only ever called on all-ASCII strings, where bytes and
codepoints coincide, and its digit test is `c >= '0' && c <= '9'`. -/
def parseStringASCII (s : GoString) : List Token :=
  tokenizeFuel isAsciiDigit s.length s

/-- `parseStringUnicode` from src/optimization.go: loops over decoded
runes with the ASCII digit test `r >= '0' && r <= '9'`. -/
def parseStringUnicode (s : GoString) : List Token :=
  tokenizeFuel isAsciiDigit s.length s

/-- `parseStringOptimized` from src/optimization.go: dispatches on
`isASCII` between the byte path and the rune path. -/
def parseStringOptimized (s : GoString) : List Token :=
  if isASCII s then parseStringASCII s else parseStringUnicode s

/-- Value of a digit string, most significant digit first. -/
def digitsVal (s : GoString) : Nat :=
  s.foldl (fun v c => 10 * v + (c.toNat - 48)) 0

/-- Helper for `goAtoi`: parse an unsigned run of digits and apply the
sign, rejecting empty input, non-digit characters, and values outside
the signed 64-bit range. -/
def goAtoiDigits (ds : GoString) (neg : Bool) : Option Int :=
  if ds = [] then none
  else if ds.all isAsciiDigit then
    let r : Int := if neg then -(digitsVal ds : Int) else (digitsVal ds : Int)
    if r < -(2 ^ 63) ∨ r > 2 ^ 63 - 1 then none else some r
  else none

/-- Model of Go `strconv.Atoi` on a 64-bit platform (called by
`compareTokensWithConfig` in src/ansort.go): an optional sign followed by
a nonempty run of ASCII decimal digits, succeeding exactly when the value
fits a signed 64-bit integer, and reporting an error (`none`) otherwise. -/
def goAtoi (s : GoString) : Option Int :=
  match s with
  | [] => none
  | c :: rest =>
    if c = '+' then goAtoiDigits rest false
    else if c = '-' then goAtoiDigits rest true
    else goAtoiDigits s false

/-- `Config` from src/ansort.go. -/
structure Config where
  CaseSensitive : Bool
deriving DecidableEq, Repr

/-- `DefaultConfig` from src/ansort.go. -/
def DefaultConfig : Config := { CaseSensitive := true }

/-- `Option` from src/ansort.go (`func(*Config)`); renamed to avoid the
Lean `Option` type. -/
abbrev SortOption := Config → Config

/-- `WithCaseSensitive` from src/ansort.go. -/
def WithCaseSensitive (caseSensitive : Bool) : SortOption :=
  fun c => { c with CaseSensitive := caseSensitive }

/-- `WithCaseInsensitive` from src/ansort.go. -/
def WithCaseInsensitive : SortOption := WithCaseSensitive false

/-- `buildConfig` from src/ansort.go: apply the options to the default. -/
def buildConfig (options : List SortOption) : Config :=
  options.foldl (fun c o => o c) DefaultConfig

/-- Model of Go `strings.ToLower` applied per rune.  Only the ASCII
mapping is spelled out: every case-folded character in this development
is ASCII, where Go's Unicode lowercase mapping agrees with this one. -/
def toLowerGo (c : Char) : Char :=
  if 'A' ≤ c ∧ c ≤ 'Z' then Char.ofNat (c.toNat + 32) else c

/-- `compareTokensWithConfig` from src/ansort.go: numeric before alpha on
a type mismatch; numeric tokens via `strconv.Atoi` with a plain string
comparison fallback when either conversion fails, then a
shorter-first / lexicographic tie-break on equal values; alpha tokens by
string comparison, lowercased first when case-insensitive. -/
def compareTokensWithConfig (a b : Token) (config : Config) : Int :=
  if a.tokenType ≠ b.tokenType then
    if a.tokenType = NumericToken then -1 else 1
  else if a.tokenType = NumericToken then
    match goAtoi a.value, goAtoi b.value with
    | some aNum, some bNum =>
      if aNum < bNum then -1
      else if aNum > bNum then 1
      else if a.value ≠ b.value then
        if a.value.length < b.value.length then -1
        else if a.value.length > b.value.length then 1
        else if goStrLt a.value b.value then -1
        else if goStrLt b.value a.value then 1
        else 0
      else 0
    | _, _ =>
      if goStrLt a.value b.value then -1
      else if goStrLt b.value a.value then 1
      else 0
  else
    let aValue := if config.CaseSensitive then a.value else a.value.map toLowerGo
    let bValue := if config.CaseSensitive then b.value else b.value.map toLowerGo
    if goStrLt aValue bValue then -1
    else if goStrLt bValue aValue then 1
    else 0

/-- The token-by-token loop shared by `Compare`, `CompareValidated`
(src/ansort.go), `compareWithCache`, `CompareOptimized` and
`compareWithoutCache` (src/optimization.go): compare pairwise up to the
shorter length; if all compared tokens are equal the shorter token
sequence comes first. -/
def compareTokenSequences (as bs : List Token) (config : Config) : Int :=
  match as, bs with
  | a :: as, b :: bs =>
    let result := compareTokensWithConfig a b config
    if result ≠ 0 then result else compareTokenSequences as bs config
  | [], [] => 0
  | [], _ :: _ => -1
  | _ :: _, [] => 1

/-- `Compare` from src/ansort.go: short-circuit identical strings, then
tokenize with `parseString` and compare token sequences. -/
def Compare (a b : GoString) (options : List SortOption) : Int :=
  if a = b then 0
  else
    compareTokenSequences (parseString a) (parseString b) (buildConfig options)

/-- `ExternalSortKeyConfig` from src/ansort.go. -/
structure ExternalSortKeyConfig where
  CaseSensitive : Bool
  MaxNumericLength : Int
deriving DecidableEq, Repr

/-- `DefaultExternalSortKeyConfig` from src/ansort.go. -/
def DefaultExternalSortKeyConfig : ExternalSortKeyConfig :=
  { CaseSensitive := true, MaxNumericLength := 10 }

/-- `ExternalSortKeyOption` from src/ansort.go. -/
abbrev ExternalSortKeyOption := ExternalSortKeyConfig → ExternalSortKeyConfig

/-- `WithMaxNumericLength` from src/ansort.go. -/
def WithMaxNumericLength (length : Int) : ExternalSortKeyOption :=
  fun c => { c with MaxNumericLength := length }

/-- `WithExternalCaseSensitive` from src/ansort.go. -/
def WithExternalCaseSensitive (caseSensitive : Bool) : ExternalSortKeyOption :=
  fun c => { c with CaseSensitive := caseSensitive }

/-- `WithExternalCaseInsensitive` from src/ansort.go. -/
def WithExternalCaseInsensitive : ExternalSortKeyOption :=
  WithExternalCaseSensitive false

/-- `buildExternalSortKeyConfig` from src/ansort.go. -/
def buildExternalSortKeyConfig (options : List ExternalSortKeyOption) :
    ExternalSortKeyConfig :=
  options.foldl (fun c o => o c) DefaultExternalSortKeyConfig

/-- `ValidationError` from src/ansort.go. -/
structure ValidationError where
  Field : GoString
  Message : GoString
deriving DecidableEq, Repr

/-- `validateConfig` from src/ansort.go: always nil. -/
def validateConfig (_config : Config) : Option ValidationError := none

/-- `validateExternalSortKeyConfig` from src/ansort.go: rejects
`MaxNumericLength <= 0` and `MaxNumericLength > 50`. -/
def validateExternalSortKeyConfig (config : ExternalSortKeyConfig) :
    Option ValidationError :=
  if config.MaxNumericLength ≤ 0 then
    some { Field := goStr "MaxNumericLength",
           Message := goStr "must be greater than 0" }
  else if config.MaxNumericLength > 50 then
    some { Field := goStr "MaxNumericLength",
           Message := goStr "must be 50 or less to prevent excessive memory usage" }
  else none

/-- `validateSlice` from src/ansort.go; a Go slice that may be nil is
modelled as `Option (List GoString)`. -/
def validateSlice (data : Option (List GoString)) (operationName : GoString) :
    Option ValidationError :=
  match data with
  | none => some { Field := goStr "data",
                   Message := goStr "slice cannot be nil for " ++ operationName }
  | some _ => none

/-- `padNumericToken` from src/ansort.go: if `len(numStr) >= maxLength`
(byte length) return the string unchanged, otherwise
`fmt.Sprintf("%0*s", maxLength, numStr)`, which left-pads with `'0'` to a
minimum of `maxLength` runes. -/
def padNumericToken (numStr : GoString) (maxLength : Int) : GoString :=
  if (goLen numStr : Int) ≥ maxLength then numStr
  else List.replicate (maxLength - numStr.length).toNat '0' ++ numStr

/-- The token-processing loop shared verbatim by `ToNaturalSortKey` and
`ToNaturalSortKeyValidated` (src/ansort.go): pad numeric tokens, case-fold
alpha tokens when case-insensitive, and concatenate. -/
def buildSortKey (tokens : List Token) (config : ExternalSortKeyConfig) :
    GoString :=
  tokens.foldl
    (fun result token =>
      if token.tokenType = NumericToken then
        result ++ padNumericToken token.value config.MaxNumericLength
      else
        result ++
          (if config.CaseSensitive then token.value
           else token.value.map toLowerGo))
    []

/-- `ToNaturalSortKey` from src/ansort.go: empty input maps to empty
output; otherwise build the configuration (without validating it),
tokenize with `parseString`, and emit the padded/case-folded key. -/
def ToNaturalSortKey (input : GoString) (options : List ExternalSortKeyOption) :
    GoString :=
  if input = [] then []
  else buildSortKey (parseString input) (buildExternalSortKeyConfig options)

/-- `ToNaturalSortKeyValidated` from src/ansort.go: empty input returns
`("", nil)` before any validation; otherwise validation failure returns
`("", err)` and success returns the same key as `ToNaturalSortKey`.
The Go pair `(string, error)` is the pair `GoString × Option ValidationError`. -/
def ToNaturalSortKeyValidated (input : GoString)
    (options : List ExternalSortKeyOption) :
    GoString × Option ValidationError :=
  if input = [] then ([], none)
  else
    let config := buildExternalSortKeyConfig options
    match validateExternalSortKeyConfig config with
    | some err => ([], some err)
    | none => (buildSortKey (parseString input) config, none)

/-- `AlphanumericSorter` from src/ansort.go; its data slice may be nil. -/
structure AlphanumericSorter where
  data : Option (List GoString)
  config : Config
deriving Repr

/-- Model of Go's `sort.Sort` applied to the `AlphanumericSorter`
comparator: a permutation of the slice that is sorted with respect to
`Less i j = Compare(data[i], data[j]) < 0`.  Go's pattern-defeating
quicksort is not stable; `mergeSort` stands in for it as some
comparator-respecting sort (no claim in this development depends on the
order among comparator-ties). -/
def sortSlice (l : List GoString) (config : Config) : List GoString :=
  l.mergeSort fun a b => Compare a b [WithCaseSensitive config.CaseSensitive] ≤ 0

/-- `NewSorter` from src/ansort.go. -/
def NewSorter (data : Option (List GoString)) (options : List SortOption) :
    AlphanumericSorter :=
  { data := data, config := buildConfig options }

/-- `NewSorterValidated` from src/ansort.go: nil data is rejected with a
`ValidationError` before the sorter is built. -/
def NewSorterValidated (data : Option (List GoString))
    (options : List SortOption) : Except ValidationError AlphanumericSorter :=
  match validateSlice data (goStr "NewSorterValidated") with
  | some err => Except.error err
  | none =>
    let config := buildConfig options
    match validateConfig config with
    | some err => Except.error err
    | none => Except.ok { data := data, config := config }

/-- `SortStrings` from src/ansort.go: nil input returns immediately (the
slice is untouched and no error is reported — the function has no error
return at all); otherwise the slice is sorted in place. -/
def SortStrings (data : Option (List GoString)) (options : List SortOption) :
    Option (List GoString) :=
  match data with
  | none => none
  | some l =>
    let config := buildConfig options
    match validateConfig config with
    | some _ => some l
    | none => some (sortSlice l config)

/-- `SortStringsValidated` from src/ansort.go: the returned pair is the
slice contents after the call (Go sorts in place) together with the
returned error; nil data yields an explicit `ValidationError` with the
slice untouched. -/
def SortStringsValidated (data : Option (List GoString))
    (options : List SortOption) :
    Option (List GoString) × Option ValidationError :=
  match validateSlice data (goStr "SortStringsValidated") with
  | some err => (data, some err)
  | none =>
    let config := buildConfig options
    match validateConfig config with
    | some err => (data, some err)
    | none =>
      match data with
      | none => (none, none)
      | some l => (some (sortSlice l config), none)

/-- `TokenCache` from src/optimization.go; the Go map is modelled as an
association list and the mutex is irrelevant to sequential behavior. -/
structure TokenCache where
  cache : List (GoString × List Token)
  maxSize : Int
deriving Repr

/-- Go map assignment `m[k] = v`: replace the binding if the key is
present, otherwise add it. -/
def mapInsert (m : List (GoString × List Token)) (k : GoString)
    (v : List Token) : List (GoString × List Token) :=
  match m with
  | [] => [(k, v)]
  | (k', v') :: rest =>
    if k' = k then (k, v) :: rest else (k', v') :: mapInsert rest k v

/-- Go map lookup `m[k]`. -/
def mapLookup (m : List (GoString × List Token)) (k : GoString) :
    Option (List Token) :=
  match m with
  | [] => none
  | (k', v') :: rest => if k' = k then some v' else mapLookup rest k

/-- `NewTokenCache` from src/optimization.go: non-positive sizes fall
back to the default capacity 1000. -/
def NewTokenCache (maxSize : Int) : TokenCache :=
  { cache := [], maxSize := if maxSize ≤ 0 then 1000 else maxSize }

/-- `TokenCache.Get` from src/optimization.go (the returned copy is the
same value in this model). -/
def TokenCache.Get (tc : TokenCache) (s : GoString) : Option (List Token) :=
  mapLookup tc.cache s

/-- `TokenCache.Put` from src/optimization.go: if the cache is at or
above capacity it is cleared entirely, then the entry is stored. -/
def TokenCache.Put (tc : TokenCache) (s : GoString) (tokens : List Token) :
    TokenCache :=
  let base := if (tc.cache.length : Int) ≥ tc.maxSize then [] else tc.cache
  { tc with cache := mapInsert base s tokens }

/-- `TokenCache.Size` from src/optimization.go. -/
def TokenCache.Size (tc : TokenCache) : Int := tc.cache.length

/-- `TokenCache.Clear` from src/optimization.go. -/
def TokenCache.Clear (tc : TokenCache) : TokenCache :=
  { tc with cache := [] }

/-- The externally reachable mutating cache operations, for stating the
capacity invariant over arbitrary operation sequences. -/
inductive CacheOp where
  | put (s : GoString) (tokens : List Token) : CacheOp
  | clear : CacheOp

/-- Apply one cache operation. -/
def stepCacheOp (tc : TokenCache) : CacheOp → TokenCache
  | CacheOp.put s tokens => tc.Put s tokens
  | CacheOp.clear => tc.Clear

/-- Apply a sequence of cache operations in order. -/
def runCacheOps (tc : TokenCache) (ops : List CacheOp) : TokenCache :=
  ops.foldl stepCacheOp tc

/-- `CompareLegacy`.  Modelled from the spec: the optimization layer's
documentation declares `func CompareLegacy(a, b string, options ...Option) int`
as the "original implementation" used when caching is disabled, but the
file defining it is not part of src/; per the spec (§4.5) the
cache-disabled path is the direct, uncached comparator, i.e. `Compare`. -/
def CompareLegacy (a b : GoString) (options : List SortOption) : Int :=
  Compare a b options

/-- `compareWithoutCache` from src/optimization.go: parse both strings
with `parseStringOptimized` (no cache) and run the shared comparison
loop. -/
def compareWithoutCache (a b : GoString) (options : List SortOption) : Int :=
  compareTokenSequences (parseStringOptimized a) (parseStringOptimized b)
    (buildConfig options)

/-- `CompareOptimized` from src/optimization.go.  The package-global
mutable state it reads (`globalCacheDisabled`, whose defining file is not
part of src/ but which defaults to false per the documented
`DisableCache`/`EnableCache` API, `adaptiveCachingEnabled = true`, and
`globalCache`) is passed explicitly; the result is the returned ordering
together with the global cache state after the call.  Short strings
(both byte lengths < 10) skip the cache; otherwise tokens are fetched
from the cache or parsed with `parseStringOptimized` and stored. -/
def CompareOptimized (globalCacheDisabled adaptiveCachingEnabled : Bool)
    (globalCache : TokenCache) (a b : GoString) (options : List SortOption) :
    Int × TokenCache :=
  if a = b then (0, globalCache)
  else if globalCacheDisabled then (CompareLegacy a b options, globalCache)
  else if adaptiveCachingEnabled ∧ goLen a < 10 ∧ goLen b < 10 then
    (compareWithoutCache a b options, globalCache)
  else
    let config := buildConfig options
    let resA :=
      match globalCache.Get a with
      | some t => (t, globalCache)
      | none =>
        let t := parseStringOptimized a
        (t, globalCache.Put a t)
    let resB :=
      match resA.2.Get b with
      | some t => (t, resA.2)
      | none =>
        let t := parseStringOptimized b
        (t, resA.2.Put b t)
    (compareTokenSequences resA.1 resB.1 config, resB.2)

/-- The spec's ordering on numeric tokens (§4.2), written from the spec's
words for comparison against `compareTokensWithConfig`: compare numeric
value first; if numerically equal but the digit strings differ, the
shorter digit string (fewer characters) sorts first; if equal length but
different text, compare lexicographically. -/
def specNumericTokenOrder (a b : GoString) : Int :=
  if digitsVal a < digitsVal b then -1
  else if digitsVal b < digitsVal a then 1
  else if a.length < b.length then -1
  else if b.length < a.length then 1
  else if goStrLt a b then -1
  else if goStrLt b a then 1
  else 0

/-- The invariant maintained by every reachable `TokenCache`: positive
capacity and entry count within capacity. -/
def CacheInv (tc : TokenCache) : Prop :=
  1 ≤ tc.maxSize ∧ (tc.cache.length : Int) ≤ tc.maxSize

end Ansort

namespace Ansort

/-- `buildConfig` with no options is the default configuration. -/
theorem buildConfig_nil : buildConfig [] = DefaultConfig := rfl

/-- C1: the claim asserts that `Compare` is transitive for all strings,
including numeric tokens beyond 64 bits.  The code is not: `strconv.Atoi`
fails on 20-digit inputs and `compareTokensWithConfig` then falls back to
plain lexicographic comparison, which is inconsistent with the numeric
comparison used for in-range pairs.  Concretely `"10" < "10000000000000000000"`,
`"10000000000000000000" < "9"`, yet `"10" > "9"`. -/
theorem C1_compare_intransitive_beyond_64_bits :
    Compare (goStr "10") (goStr "10000000000000000000") [] = -1 ∧
    Compare (goStr "10000000000000000000") (goStr "9") [] = -1 ∧
    Compare (goStr "10") (goStr "9") [] = 1 ∧
    ¬ (∀ a b c : GoString,
        Compare a b [] < 0 → Compare b c [] < 0 → Compare a c [] < 0) := by
  refine ⟨by decide, by decide, by decide, fun h => ?_⟩
  have h2 := h (goStr "10") (goStr "10000000000000000000") (goStr "9")
    (by decide) (by decide)
  rw [show Compare (goStr "10") (goStr "9") [] = 1 from by decide] at h2
  exact absurd h2 (by decide)

/-- C2: the claim asserts `encode(a) < encode(b)` byte-wise iff
`Compare(a,b) = Less`.  The code maps `"1"` and `"001"` to the identical
key `"0000000001"` although `Compare("1","001") = Less`, so byte-wise key
order cannot reproduce Compare order. -/
theorem C2_sort_key_not_order_embedding :
    ToNaturalSortKey (goStr "1") [] = goStr "0000000001" ∧
    ToNaturalSortKey (goStr "001") [] = goStr "0000000001" ∧
    Compare (goStr "1") (goStr "001") [] = -1 ∧
    ¬ (∀ a b : GoString,
        goStrLt (ToNaturalSortKey a []) (ToNaturalSortKey b []) = true ↔
          Compare a b [] = -1) := by
  refine ⟨by decide, by decide, by decide, fun h => ?_⟩
  exact absurd ((h (goStr "1") (goStr "001")).mpr (by decide)) (by decide)

/-- C3: the claim asserts the cached/optimized comparison path agrees
with the direct `Compare` everywhere.  On `"٥"` (U+0665, an Arabic-Indic
digit) versus `"a"` the optimized path (ASCII-only digit test in
`parseStringOptimized`) answers Greater while `Compare`
(`unicode.IsDigit` in `parseString`) answers Less, so cache-enabled and
cache-disabled sorting order these inputs differently. -/
theorem C3_cached_path_disagrees_with_compare :
    (CompareOptimized false true (NewTokenCache 2000)
        (goStr "٥") (goStr "a") []).1 = 1 ∧
    Compare (goStr "٥") (goStr "a") [] = -1 ∧
    CompareLegacy (goStr "٥") (goStr "a") [] = -1 := by decide

/-- C4: the claim asserts the tokenizer treats exactly the ASCII digits
`'0'..'9'` as numeric.  `parseString` (src/ansort.go) uses
`unicode.IsDigit`, which also accepts U+0665, yielding a Numeric token
where the claim requires an Alpha token; the optimized paths
(src/optimization.go) honour the ASCII-only rule. -/
theorem C4_parseString_accepts_non_ascii_digits :
    parseString (goStr "٥") = [Token.mk NumericToken (goStr "٥")] ∧
    parseStringOptimized (goStr "٥") = [Token.mk AlphaToken (goStr "٥")] ∧
    unicodeIsDigit (Char.ofNat 0x665) = true ∧
    isAsciiDigit (Char.ofNat 0x665) = false := by decide

/-- C8: for a nil slice, `SortStrings` is a silent no-op while
`SortStringsValidated` and `NewSorterValidated` report an explicit
`ValidationError` and leave the data untouched, whatever options are
passed. -/
theorem C8_nil_slice_handling :
    ∀ opts1 opts2 opts3 : List SortOption,
      SortStrings none opts1 = none ∧
      SortStringsValidated none opts2 =
        (none, some { Field := goStr "data",
                      Message := goStr "slice cannot be nil for SortStringsValidated" }) ∧
      NewSorterValidated none opts3 =
        Except.error { Field := goStr "data",
                       Message := goStr "slice cannot be nil for NewSorterValidated" } := by
  intro opts1 opts2 opts3
  exact ⟨rfl, rfl, rfl⟩

end Ansort

namespace Ansort

/-- Go map assignment adds at most one entry. -/
theorem mapInsert_length_le (m : List (GoString × List Token)) (k : GoString)
    (v : List Token) : (mapInsert m k v).length ≤ m.length + 1 := by
  induction m with
  | nil => simp [mapInsert]
  | cons hd tl ih =>
    obtain ⟨k', v'⟩ := hd
    simp only [mapInsert]
    split
    · simp
    · simpa using Nat.succ_le_succ ih

/-- `Put` and `Clear` keep the capacity field unchanged. -/
theorem stepCacheOp_maxSize (tc : TokenCache) (op : CacheOp) :
    (stepCacheOp tc op).maxSize = tc.maxSize := by
  cases op <;> rfl

/-- A single cache operation preserves the capacity invariant. -/
theorem stepCacheOp_inv (tc : TokenCache) (op : CacheOp) (h : CacheInv tc) :
    CacheInv (stepCacheOp tc op) := by
  obtain ⟨h1, h2⟩ := h
  cases op with
  | clear =>
    refine ⟨h1, ?_⟩
    show ((List.length [] : Nat) : Int) ≤ tc.maxSize
    simp
    omega
  | put s tokens =>
    refine ⟨h1, ?_⟩
    show ((mapInsert (if ((tc.cache.length : Int) ≥ tc.maxSize) then [] else tc.cache) s tokens).length : Int) ≤ tc.maxSize
    split
    · have := mapInsert_length_le ([] : List (GoString × List Token)) s tokens
      have : (mapInsert ([] : List (GoString × List Token)) s tokens).length ≤ 1 := by
        simpa using this
      calc ((mapInsert ([] : List (GoString × List Token)) s tokens).length : Int)
          ≤ (1 : Int) := by exact_mod_cast this
        _ ≤ tc.maxSize := h1
    · have hlt : ¬ ((tc.cache.length : Int) ≥ tc.maxSize) := by assumption
      have hx := mapInsert_length_le tc.cache s tokens
      have : ((mapInsert tc.cache s tokens).length : Int) ≤ (tc.cache.length : Int) + 1 := by
        exact_mod_cast hx
      omega

/-- Any operation sequence preserves the invariant and the capacity. -/
theorem runCacheOps_inv (ops : List CacheOp) (tc : TokenCache)
    (h : CacheInv tc) :
    CacheInv (runCacheOps tc ops) ∧
      (runCacheOps tc ops).maxSize = tc.maxSize := by
  induction ops generalizing tc with
  | nil => exact ⟨h, rfl⟩
  | cons op rest ih =>
    have hstep := stepCacheOp_inv tc op h
    have := ih (stepCacheOp tc op) hstep
    exact ⟨this.1, this.2.trans (stepCacheOp_maxSize tc op)⟩

/-- C9: starting from `NewTokenCache`, the number of cached entries never
exceeds the capacity after any sequence of `Put`/`Clear` operations, and
a `Put` against a full cache clears every prior entry, leaving exactly
the new one. -/
theorem C9_cache_capacity_invariant :
    (∀ (maxSize : Int) (ops : List CacheOp),
       (runCacheOps (NewTokenCache maxSize) ops).Size ≤
         (NewTokenCache maxSize).maxSize) ∧
    (∀ (tc : TokenCache) (s : GoString) (tokens : List Token),
       tc.Size ≥ tc.maxSize → (tc.Put s tokens).cache = [(s, tokens)]) := by
  constructor
  · intro maxSize ops
    have hinv : CacheInv (NewTokenCache maxSize) := by
      constructor
      · show (1 : Int) ≤ (if maxSize ≤ 0 then 1000 else maxSize)
        split <;> omega
      · show ((List.length [] : Nat) : Int) ≤ _
        simp [NewTokenCache]
        split <;> omega
    have h := runCacheOps_inv ops (NewTokenCache maxSize) hinv
    calc (runCacheOps (NewTokenCache maxSize) ops).Size
        ≤ (runCacheOps (NewTokenCache maxSize) ops).maxSize := h.1.2
      _ = (NewTokenCache maxSize).maxSize := h.2
  · intro tc s tokens h
    have h2 : ((tc.cache.length : Int)) ≥ tc.maxSize := h
    show mapInsert (if ((tc.cache.length : Int) ≥ tc.maxSize) then [] else tc.cache) s tokens = [(s, tokens)]
    rw [if_pos h2]
    rfl

/-- Witness for C9 at concrete inputs: a capacity-1 cache holding one
entry is at capacity, and `Put` replaces its whole contents; the bound
also holds for a concrete operation sequence. -/
theorem C9_witness :
    ((TokenCache.mk [(goStr "x", [])] 1).Size ≥
        (TokenCache.mk [(goStr "x", [])] 1).maxSize) ∧
    ((TokenCache.mk [(goStr "x", [])] 1).Put (goStr "y") []).cache =
      [(goStr "y", [])] ∧
    (runCacheOps (NewTokenCache 1)
        [CacheOp.put (goStr "x") [], CacheOp.put (goStr "y") []]).Size ≤
      (NewTokenCache 1).maxSize :=
  ⟨by decide, C9_cache_capacity_invariant.2 _ _ _ (by decide),
   C9_cache_capacity_invariant.1 1 _⟩

end Ansort

namespace Ansort

/-- An ASCII digit occupies one UTF-8 byte. -/
theorem utf8Len_of_digit (c : Char) (h : isAsciiDigit c = true) :
    utf8Len c = 1 := by
  simp only [isAsciiDigit, Bool.and_eq_true, decide_eq_true_eq] at h
  have h1 := Char.le_def.mp h.2
  rw [UInt32.le_def] at h1
  have hx : c.toNat ≤ 57 := by exact_mod_cast h1
  simp [utf8Len]
  omega

/-- On a string of ASCII digits, Go byte length equals codepoint count. -/
theorem goLen_of_digits (s : GoString) (h : s.all isAsciiDigit = true) :
    goLen s = s.length := by
  induction s with
  | nil => rfl
  | cons c rest ih =>
    simp only [List.all_cons, Bool.and_eq_true] at h
    show utf8Len c + goLen rest = rest.length + 1
    rw [utf8Len_of_digit c h.1, ih h.2]
    omega

/-- C6: `padNumericToken` never truncates — a numeric token at least as
long as the pad width is emitted unchanged, any shorter run of ASCII
digits is left-padded with `'0'` to exactly the configured width, and the
documented example key of `"file12345678901"` at width 5 keeps all 11
digits. -/
theorem C6_encoder_never_truncates :
    (∀ (numStr : GoString) (maxLength : Int),
       (goLen numStr : Int) ≥ maxLength → padNumericToken numStr maxLength = numStr) ∧
    (∀ (numStr : GoString) (maxLength : Int),
       numStr.all isAsciiDigit = true → (goLen numStr : Int) < maxLength →
       ∃ k, padNumericToken numStr maxLength = List.replicate k '0' ++ numStr ∧
         ((padNumericToken numStr maxLength).length : Int) = maxLength) ∧
    ToNaturalSortKey (goStr "file12345678901") [WithMaxNumericLength 5] =
      goStr "file12345678901" := by
  refine ⟨?_, ?_, by decide⟩
  · intro numStr maxLength h
    simp [padNumericToken, h]
  · intro numStr maxLength hd h
    refine ⟨(maxLength - numStr.length).toNat, ?_, ?_⟩
    · simp [padNumericToken, not_le.mpr h]
    · rw [padNumericToken, if_neg (by omega)]
      have hlen := goLen_of_digits numStr hd
      simp only [List.length_append, List.length_replicate]
      omega

/-- Witness for C6 at concrete inputs: an 11-digit token is unchanged at
width 5, and `"42"` is padded to exactly width 5. -/
theorem C6_witness :
    padNumericToken (goStr "12345678901") 5 = goStr "12345678901" ∧
    ∃ k, padNumericToken (goStr "42") 5 = List.replicate k '0' ++ goStr "42" ∧
      ((padNumericToken (goStr "42") 5).length : Int) = 5 :=
  ⟨C6_encoder_never_truncates.1 (goStr "12345678901") 5 (by decide),
   C6_encoder_never_truncates.2.1 (goStr "42") 5 (by decide) (by decide)⟩

/-- A configuration passes `validateExternalSortKeyConfig` exactly when
the pad width is in 1..50. -/
theorem validateExternalSortKeyConfig_none_iff (config : ExternalSortKeyConfig) :
    validateExternalSortKeyConfig config = none ↔
      ¬ (config.MaxNumericLength ≤ 0 ∨ config.MaxNumericLength > 50) := by
  unfold validateExternalSortKeyConfig
  split_ifs with h1 h2
  · simp [h1]
  · simp [h2]
  · constructor
    · intro _
      exact not_or.mpr ⟨h1, h2⟩
    · intro _
      rfl

/-- C7 (amended): for non-empty input `ToNaturalSortKeyValidated` reports
a configuration error exactly when the configured width is outside 1..50,
returning the empty string alongside the error; with a valid width it
returns exactly `ToNaturalSortKey`'s key and no error; empty input
short-circuits to `("", nil)` before any validation. -/
theorem C7_validated_amended :
    ∀ (input : GoString) (options : List ExternalSortKeyOption),
      (input = [] → ToNaturalSortKeyValidated input options = ([], none)) ∧
      (input ≠ [] →
        (((ToNaturalSortKeyValidated input options).2 ≠ none) ↔
          ((buildExternalSortKeyConfig options).MaxNumericLength ≤ 0 ∨
           (buildExternalSortKeyConfig options).MaxNumericLength > 50)) ∧
        ((buildExternalSortKeyConfig options).MaxNumericLength ≤ 0 ∨
            (buildExternalSortKeyConfig options).MaxNumericLength > 50 →
          (ToNaturalSortKeyValidated input options).1 = [])) ∧
      (¬ ((buildExternalSortKeyConfig options).MaxNumericLength ≤ 0 ∨
            (buildExternalSortKeyConfig options).MaxNumericLength > 50) →
        ToNaturalSortKeyValidated input options =
          (ToNaturalSortKey input options, none)) := by
  intro input options
  by_cases hin : input = []
  · subst hin
    exact ⟨fun _ => rfl, fun h => absurd rfl h, fun _ => rfl⟩
  · refine ⟨fun h => absurd h hin, fun _ => ⟨?_, ?_⟩, ?_⟩
    · rcases hv : validateExternalSortKeyConfig (buildExternalSortKeyConfig options) with _ | err
      · have hside := (validateExternalSortKeyConfig_none_iff _).mp hv
        simp only [ToNaturalSortKeyValidated, if_neg hin, hv]
        simpa using hside
      · have hne : validateExternalSortKeyConfig (buildExternalSortKeyConfig options) ≠ none := by
          simp [hv]
        have hside : (buildExternalSortKeyConfig options).MaxNumericLength ≤ 0 ∨
            (buildExternalSortKeyConfig options).MaxNumericLength > 50 := by
          by_contra hc
          exact hne ((validateExternalSortKeyConfig_none_iff _).mpr hc)
        simp only [ToNaturalSortKeyValidated, if_neg hin, hv]
        simpa using hside
    · intro hbad
      rcases hv : validateExternalSortKeyConfig (buildExternalSortKeyConfig options) with _ | err
      · exact absurd hbad ((validateExternalSortKeyConfig_none_iff _).mp hv)
      · simp [ToNaturalSortKeyValidated, hin, hv]
    · intro hok
      have hv := (validateExternalSortKeyConfig_none_iff _).mpr hok
      simp [ToNaturalSortKeyValidated, ToNaturalSortKey, hin, hv]

/-- Witness for C7 at concrete inputs: `"a5"` with the default (valid)
width validates and matches `ToNaturalSortKey`; with width 0 the error is
reported. -/
theorem C7_witness :
    ToNaturalSortKeyValidated (goStr "a5") [] = (ToNaturalSortKey (goStr "a5") [], none) ∧
    (ToNaturalSortKeyValidated (goStr "a5") [WithMaxNumericLength 0]).2 ≠ none :=
  ⟨(C7_validated_amended (goStr "a5") []).2.2 (by decide),
   ((C7_validated_amended (goStr "a5") [WithMaxNumericLength 0]).2.1 (by decide)).1.mpr (by decide)⟩

/-- C7 counterexample to the claim as stated: with the invalid width 0,
the empty input returns `("", nil)` — no `ValidationError` is reported,
because `ToNaturalSortKeyValidated` short-circuits empty input before
validating the configuration. -/
theorem C7_counterexample_empty_input_skips_validation :
    (buildExternalSortKeyConfig [WithMaxNumericLength 0]).MaxNumericLength ≤ 0 ∧
    ToNaturalSortKeyValidated (goStr "") [WithMaxNumericLength 0] = ([], none) := by
  exact ⟨by decide, rfl⟩

end Ansort

namespace Ansort

/-- `goStrLt` is irreflexive. -/
theorem goStrLt_self (a : GoString) : goStrLt a a = false := by
  induction a with
  | nil => rfl
  | cons c cs ih =>
    show (if c < c then true else if c < c then false else goStrLt cs cs) = false
    rw [if_neg (lt_irrefl c), if_neg (lt_irrefl c)]
    exact ih

/-- Two strings neither of which is `goStrLt` the other are equal. -/
theorem goStrLt_antisymm (a : GoString) :
    ∀ b : GoString, goStrLt a b = false → goStrLt b a = false → a = b := by
  induction a with
  | nil =>
    intro b h1 _
    cases b with
    | nil => rfl
    | cons x xs => exact absurd h1 (by simp [goStrLt])
  | cons c cs ih =>
    intro b h1 h2
    cases b with
    | nil => exact absurd h2 (by simp [goStrLt])
    | cons x xs =>
      by_cases hcx : c < x
      · rw [show goStrLt (c :: cs) (x :: xs) = true from by
          show (if c < x then true else _) = true
          rw [if_pos hcx]] at h1
        exact absurd h1 (by simp)
      · by_cases hxc : x < c
        · rw [show goStrLt (x :: xs) (c :: cs) = true from by
            show (if x < c then true else _) = true
            rw [if_pos hxc]] at h2
          exact absurd h2 (by simp)
        · have hce : c = x := le_antisymm (not_lt.mp hxc) (not_lt.mp hcx)
          have h1r : goStrLt cs xs = false := by
            have : goStrLt (c :: cs) (x :: xs) = goStrLt cs xs := by
              show (if c < x then true else if x < c then false else goStrLt cs xs) = _
              rw [if_neg hcx, if_neg hxc]
            rwa [this] at h1
          have h2r : goStrLt xs cs = false := by
            have : goStrLt (x :: xs) (c :: cs) = goStrLt xs cs := by
              show (if x < c then true else if c < x then false else goStrLt xs cs) = _
              rw [if_neg hxc, if_neg hcx]
            rwa [this] at h2
          rw [hce, ih xs h1r h2r]

/-- `goAtoi` succeeds with the digits value on a nonempty all-digit
string within the signed 64-bit range. -/
theorem goAtoi_digits (s : GoString) (h : s.all isAsciiDigit = true)
    (h0 : s ≠ []) (hr : digitsVal s ≤ 2 ^ 63 - 1) :
    goAtoi s = some ((digitsVal s : Int)) := by
  match s, h0 with
  | c :: rest, _ =>
    have hc : isAsciiDigit c = true := by
      simp only [List.all_cons, Bool.and_eq_true] at h
      exact h.1
    have hplus : ¬ c = '+' := by
      intro hcc
      rw [hcc] at hc
      exact absurd hc (by decide)
    have hminus : ¬ c = '-' := by
      intro hcc
      rw [hcc] at hc
      exact absurd hc (by decide)
    have hne : ¬ (c :: rest : GoString) = [] := by simp
    show goAtoi (c :: rest) = some ((digitsVal (c :: rest) : Int))
    rw [goAtoi, if_neg hplus, if_neg hminus, goAtoiDigits, if_neg hne, if_pos h]
    have hub : ((digitsVal (c :: rest) : Int)) ≤ 2 ^ 63 - 1 := by
      have : ((digitsVal (c :: rest) : Int)) ≤ ((2 ^ 63 - 1 : Nat) : Int) := by
        exact_mod_cast hr
      calc ((digitsVal (c :: rest) : Int)) ≤ ((2 ^ 63 - 1 : Nat) : Int) := this
        _ = 2 ^ 63 - 1 := by norm_num
    have hlb : (0 : Int) ≤ (digitsVal (c :: rest) : Int) := Int.ofNat_nonneg _
    simp only [Bool.false_eq_true, if_false]
    rw [if_neg (by push_neg; constructor <;> omega)]

/-- `compareTokensWithConfig` on two numeric tokens, with the structural
token fields reduced. -/
theorem compareTokensWithConfig_num_num (a b : GoString) (config : Config) :
    compareTokensWithConfig (Token.mk NumericToken a) (Token.mk NumericToken b)
        config =
      (match goAtoi a, goAtoi b with
       | some aNum, some bNum =>
         if aNum < bNum then -1
         else if aNum > bNum then 1
         else if a ≠ b then
           if a.length < b.length then -1
           else if a.length > b.length then 1
           else if goStrLt a b then -1
           else if goStrLt b a then 1
           else 0
         else 0
       | _, _ =>
         if goStrLt a b then -1
         else if goStrLt b a then 1
         else 0) := rfl

/-- `compareTokensWithConfig` on two numeric tokens whose values parse. -/
theorem compareTokensWithConfig_num_num_parsed (a b : GoString)
    (config : Config) (va vb : Int) (hA : goAtoi a = some va)
    (hB : goAtoi b = some vb) :
    compareTokensWithConfig (Token.mk NumericToken a) (Token.mk NumericToken b)
        config =
      (if va < vb then -1
       else if va > vb then 1
       else if a ≠ b then
         if a.length < b.length then -1
         else if a.length > b.length then 1
         else if goStrLt a b then -1
         else if goStrLt b a then 1
         else 0
       else 0) := by
  rw [compareTokensWithConfig_num_num, hA, hB]

/-- C5 (amended): on numeric tokens whose digit strings both parse as
signed 64-bit integers, `compareTokensWithConfig` realizes the spec's
order — numeric value first, then shorter digit string, then
lexicographic — and `Compare` validates the documented examples
`"1" < "001"`, `"001" < "0001"`, `"2" < "010"`. -/
theorem C5_numeric_token_order (a b : GoString)
    (ha : a.all isAsciiDigit = true) (hb : b.all isAsciiDigit = true)
    (ha0 : a ≠ []) (hb0 : b ≠ [])
    (haR : digitsVal a ≤ 2 ^ 63 - 1) (hbR : digitsVal b ≤ 2 ^ 63 - 1) :
    compareTokensWithConfig (Token.mk NumericToken a) (Token.mk NumericToken b)
        DefaultConfig = specNumericTokenOrder a b ∧
    Compare (goStr "1") (goStr "001") [] = -1 ∧
    Compare (goStr "001") (goStr "0001") [] = -1 ∧
    Compare (goStr "2") (goStr "010") [] = -1 := by
  refine ⟨?_, by decide, by decide, by decide⟩
  rw [compareTokensWithConfig_num_num_parsed a b DefaultConfig
      ((digitsVal a : Int)) ((digitsVal b : Int)) (goAtoi_digits a ha ha0 haR)
      (goAtoi_digits b hb hb0 hbR), specNumericTokenOrder]
  by_cases h1 : digitsVal a < digitsVal b
  · rw [if_pos (show ((digitsVal a : Int)) < digitsVal b by exact_mod_cast h1),
      if_pos h1]
  · rw [if_neg (show ¬ ((digitsVal a : Int)) < digitsVal b by exact_mod_cast h1),
      if_neg h1]
    by_cases h2 : digitsVal b < digitsVal a
    · rw [if_pos (show ((digitsVal a : Int)) > digitsVal b by exact_mod_cast h2),
        if_pos h2]
    · rw [if_neg (show ¬ ((digitsVal a : Int)) > digitsVal b by exact_mod_cast h2),
        if_neg h2]
      by_cases h3 : a = b
      · rw [if_neg (by simpa using h3)]
        rw [h3, if_neg (lt_irrefl _), if_neg (lt_irrefl _), goStrLt_self,
          if_neg (by simp), if_neg (by simp)]
      · rw [if_pos h3]

/-- Witness for C5 at concrete inputs: the in-range tokens `"2"` and
`"010"` compare exactly as the spec's numeric order. -/
theorem C5_witness :
    compareTokensWithConfig (Token.mk NumericToken (goStr "2"))
        (Token.mk NumericToken (goStr "010")) DefaultConfig =
      specNumericTokenOrder (goStr "2") (goStr "010") :=
  (C5_numeric_token_order (goStr "2") (goStr "010") (by decide) (by decide)
    (by decide) (by decide) (by decide) (by decide)).1

/-- C5 counterexample to the claim as stated: for digit strings beyond
the 64-bit range the comparison does not order by numeric value —
`"9"` denotes the smaller value yet `compareTokensWithConfig` says it is
Greater than the 20-digit token, because `strconv.Atoi` fails and the
code falls back to lexicographic comparison. -/
theorem C5_counterexample_value_order_fails_beyond_64_bits :
    digitsVal (goStr "9") < digitsVal (goStr "10000000000000000000") ∧
    compareTokensWithConfig (Token.mk NumericToken (goStr "9"))
      (Token.mk NumericToken (goStr "10000000000000000000"))
      DefaultConfig = 1 := by decide

end Ansort

namespace Ansort

/-- Dropping a satisfied prefix never lengthens a list. -/
theorem length_dropWhile_le (p : Char → Bool) (l : List Char) :
    (l.dropWhile p).length ≤ l.length := by
  induction l with
  | nil => simp
  | cons c cs ih =>
    by_cases h : p c = true
    · rw [List.dropWhile_cons, if_pos h, List.length_cons]
      omega
    · rw [List.dropWhile_cons, if_neg h]

/-- The tokens produced by a tokenizer loop concatenate back to the
input string, given enough fuel. -/
theorem joinTokens_tokenizeFuel (isDig : Char → Bool) (n : Nat) :
    ∀ s : GoString, s.length ≤ n →
      joinTokens (tokenizeFuel isDig n s) = s := by
  induction n with
  | zero =>
    intro s hs
    cases s with
    | nil => rfl
    | cons c cs => simp at hs
  | succ n ih =>
    intro s hs
    cases s with
    | nil => rfl
    | cons c cs =>
      by_cases hd : isDig c = true
      · have hlen : ((c :: cs).dropWhile isDig).length ≤ n := by
          rw [List.dropWhile_cons, if_pos hd]
          have := length_dropWhile_le isDig cs
          simp at hs
          omega
        rw [tokenizeFuel, if_pos hd]
        show (c :: cs).takeWhile isDig ++
            joinTokens (tokenizeFuel isDig n ((c :: cs).dropWhile isDig)) = c :: cs
        rw [ih ((c :: cs).dropWhile isDig) hlen]
        exact List.takeWhile_append_dropWhile isDig (c :: cs)
      · have hd2 : (! isDig c) = true := by simp [hd]
        have hlen : ((c :: cs).dropWhile (fun x => ! isDig x)).length ≤ n := by
          rw [List.dropWhile_cons, if_pos hd2]
          have := length_dropWhile_le (fun x => ! isDig x) cs
          simp at hs
          omega
        rw [tokenizeFuel, if_neg hd]
        show (c :: cs).takeWhile (fun x => ! isDig x) ++
            joinTokens (tokenizeFuel isDig n
              ((c :: cs).dropWhile (fun x => ! isDig x))) = c :: cs
        rw [ih ((c :: cs).dropWhile (fun x => ! isDig x)) hlen]
        exact List.takeWhile_append_dropWhile (fun x => ! isDig x) (c :: cs)

/-- The tokens of `parseString` concatenate back to the input. -/
theorem joinTokens_parseString (s : GoString) :
    joinTokens (parseString s) = s :=
  joinTokens_tokenizeFuel unicodeIsDigit s.length s le_rfl

/-- `compareTokensWithConfig` on two numeric tokens when either `Atoi`
conversion fails: plain string comparison of the digit runs. -/
theorem compareTokensWithConfig_num_num_fallback (a b : GoString)
    (config : Config) (hfail : goAtoi a = none ∨ goAtoi b = none) :
    compareTokensWithConfig (Token.mk NumericToken a) (Token.mk NumericToken b)
        config =
      (if goStrLt a b then -1
       else if goStrLt b a then 1
       else 0) := by
  rw [compareTokensWithConfig_num_num]
  rcases hfail with hf | hf
  · rw [hf]
  · rcases hA : goAtoi a with _ | x
    · rfl
    · rw [hf]

/-- A three-way string comparison that answers 0 only on equal strings. -/
theorem strCmpChain_eq_zero (va vb : GoString)
    (h : (if goStrLt va vb then (-1 : Int) else if goStrLt vb va then 1 else 0)
        = 0) :
    va = vb := by
  by_cases hs1 : goStrLt va vb = true
  · rw [if_pos hs1] at h
    exact absurd h (by decide)
  · rw [if_neg hs1] at h
    by_cases hs2 : goStrLt vb va = true
    · rw [if_pos hs2] at h
      exact absurd h (by decide)
    · exact goStrLt_antisymm va vb (by simpa using hs1) (by simpa using hs2)

/-- Under the case-sensitive default configuration, tokens comparing
Equal are identical. -/
theorem compareTokensWithConfig_eq_zero (t u : Token)
    (h : compareTokensWithConfig t u DefaultConfig = 0) : t = u := by
  obtain ⟨ta, va⟩ := t
  obtain ⟨tb, vb⟩ := u
  by_cases hty : ta = tb
  · subst hty
    cases ta with
    | NumericToken =>
      rcases hA : goAtoi va with _ | x
      · rw [compareTokensWithConfig_num_num_fallback va vb _ (Or.inl hA)] at h
        rw [strCmpChain_eq_zero va vb h]
      · rcases hB : goAtoi vb with _ | y
        · rw [compareTokensWithConfig_num_num_fallback va vb _ (Or.inr hB)] at h
          rw [strCmpChain_eq_zero va vb h]
        · rw [compareTokensWithConfig_num_num_parsed va vb DefaultConfig x y hA hB] at h
          by_cases hxy : x < y
          · rw [if_pos hxy] at h
            exact absurd h (by decide)
          · rw [if_neg hxy] at h
            by_cases hyx : x > y
            · rw [if_pos hyx] at h
              exact absurd h (by decide)
            · rw [if_neg hyx] at h
              by_cases hvv : va = vb
              · rw [hvv]
              · rw [if_pos hvv] at h
                by_cases hl1 : va.length < vb.length
                · rw [if_pos hl1] at h
                  exact absurd h (by decide)
                · rw [if_neg hl1] at h
                  by_cases hl2 : va.length > vb.length
                  · rw [if_pos hl2] at h
                    exact absurd h (by decide)
                  · rw [if_neg hl2] at h
                    exact absurd (strCmpChain_eq_zero va vb h) hvv
    | AlphaToken =>
      rw [show compareTokensWithConfig (Token.mk AlphaToken va)
          (Token.mk AlphaToken vb) DefaultConfig =
          (if goStrLt va vb then -1
           else if goStrLt vb va then 1
           else 0) from rfl] at h
      rw [strCmpChain_eq_zero va vb h]
  · rw [show compareTokensWithConfig (Token.mk ta va) (Token.mk tb vb)
        DefaultConfig =
        (if ta = NumericToken then -1 else 1) from by
      rw [compareTokensWithConfig, if_pos]
      simpa using hty] at h
    by_cases hn : ta = NumericToken
    · rw [if_pos hn] at h
      exact absurd h (by decide)
    · rw [if_neg hn] at h
      exact absurd h (by decide)

/-- Under the case-sensitive default configuration, token sequences
comparing Equal are identical. -/
theorem compareTokenSequences_eq_zero (as : List Token) :
    ∀ bs : List Token, compareTokenSequences as bs DefaultConfig = 0 →
      as = bs := by
  induction as with
  | nil =>
    intro bs h
    cases bs with
    | nil => rfl
    | cons b bs =>
      rw [show compareTokenSequences [] (b :: bs) DefaultConfig = -1 from rfl] at h
      exact absurd h (by decide)
  | cons a as ih =>
    intro bs h
    cases bs with
    | nil =>
      rw [show compareTokenSequences (a :: as) [] DefaultConfig = 1 from rfl] at h
      exact absurd h (by decide)
    | cons b bs =>
      rw [show compareTokenSequences (a :: as) (b :: bs) DefaultConfig =
          (if compareTokensWithConfig a b DefaultConfig ≠ 0 then
            compareTokensWithConfig a b DefaultConfig
          else compareTokenSequences as bs DefaultConfig) from rfl] at h
      by_cases hr : compareTokensWithConfig a b DefaultConfig = 0
      · rw [if_neg (not_not_intro hr)] at h
        rw [compareTokensWithConfig_eq_zero a b hr, ih bs h]
      · rw [if_pos hr] at h
        exact absurd h hr

/-- C10: under the default case-sensitive configuration `Compare`
answers Equal exactly on identical strings, while the case-insensitive
configuration identifies the distinct strings `"File1"` and `"file1"`. -/
theorem C10_compare_zero_iff_eq :
    (∀ a b : GoString, Compare a b [] = 0 ↔ a = b) ∧
    Compare (goStr "File1") (goStr "file1") [WithCaseInsensitive] = 0 ∧
    goStr "File1" ≠ goStr "file1" := by
  refine ⟨fun a b => ⟨fun h => ?_, fun h => by rw [Compare, if_pos h]⟩,
    by decide, by decide⟩
  by_cases hab : a = b
  · exact hab
  · rw [Compare, if_neg hab, buildConfig_nil] at h
    have hseq := compareTokenSequences_eq_zero (parseString a) (parseString b) h
    calc a = joinTokens (parseString a) := (joinTokens_parseString a).symm
      _ = joinTokens (parseString b) := by rw [hseq]
      _ = b := joinTokens_parseString b

end Ansort

namespace Ansort

/-- Witness for C8 at a concrete option list. -/
theorem C8_witness :
    SortStrings none [] = none ∧
    (SortStringsValidated none []).2 ≠ none :=
  ⟨(C8_nil_slice_handling [] [] []).1, by
    rw [(C8_nil_slice_handling [] [] []).2.1]
    simp⟩

/-- Witness for C10 at a concrete input: `Compare` answers Equal on the
identical string `"file1"`. -/
theorem C10_witness :
    goStr "file1" = goStr "file1" :=
  (C10_compare_zero_iff_eq.1 (goStr "file1") (goStr "file1")).mp (by decide)

end Ansort
